import Mathlib

/-!
Verification of the transaction-retry example in
`src/03-mongodb-transactions/example.js` (Core API part: `commitWithRetry`,
`runTransactionWithRetry`, `updateEmployeeInfo`) and of the query handler in
`src/unnamed/part_000`.

The database is modelled as an oracle (`Db`) that fixes, for each attempt
index, the outcome of the work unit's operations and of `commitTransaction`.
`startTransaction` and `abortTransaction` always succeed, as the JavaScript
code never handles errors from them.  The two collection operations inside
`updateEmployeeInfo` (the `updateOne` and the `insertOne`) are modelled as a
single work-unit body: the outcome of its n-th execution is `Db.work n`
(`none` = both operations succeeded, `some e` = one of them threw `e`).
Every call a function makes on the session is recorded in an observable
trace of `SessionOp` events.

The JavaScript functions recurse without bound, so the embedding is
fuel-indexed: a `none` result means the fuel ran out, `some (s, r)` means the
function returned (`r = Except.ok ()`) or threw (`r = Except.error e`)
with final observation state `s`.
-/

/-- The error label checked by `runTransactionWithRetry`. -/
def transientLabel : String := "TransientTransactionError"

/-- The error label checked by `commitWithRetry`. -/
def unknownLabel : String := "UnknownTransactionCommitResult"

/-- A database error: an identity plus its list of error labels
(`error.errorLabels` on a MongoDB `MongoError`). -/
structure MongoError where
  errId : Nat
  errorLabels : List String
deriving DecidableEq, Repr

/-- `error.hasErrorLabel(label)`: membership test on the error's labels. -/
def MongoError.hasErrorLabel (e : MongoError) (l : String) : Bool :=
  e.errorLabels.contains l

/-- The database oracle: `work n` is the outcome of the (n+1)-th execution of
the work-unit body, `commit m` the outcome of the (m+1)-th
`commitTransaction` call.  `none` means success, `some e` means the call
threw `e`. -/
structure Db where
  work : Nat → Option MongoError
  commit : Nat → Option MongoError

/-- Session operations observable in a trace. `endSession` is the session's
close operation; it appears in the event alphabet so that its absence from
every trace produced by the runner is a statement about the code, not about
the alphabet. -/
inductive SessionOp where
  | startTransaction
  | workOp
  | commitTransaction
  | abortTransaction
  | endSession
deriving DecidableEq, Repr

/-- Observation state threaded through a run: how many work-unit executions
and commit calls have happened, and the trace of session operations. -/
structure RunState where
  nWork : Nat
  nCommit : Nat
  trace : List SessionOp
deriving DecidableEq, Repr

/-- State after one more `commitTransaction` call. -/
def afterCommitCall (s : RunState) : RunState :=
  { s with nCommit := s.nCommit + 1,
           trace := s.trace ++ [SessionOp.commitTransaction] }

/-- State after `session.startTransaction(...)` followed by one execution of
the work-unit body (the `updateOne` + `insertOne` block). -/
def afterStartAndWork (s : RunState) : RunState :=
  { s with nWork := s.nWork + 1,
           trace := s.trace ++ [SessionOp.startTransaction, SessionOp.workOp] }

/-- State after one `session.abortTransaction()` call. -/
def afterAbortCall (s : RunState) : RunState :=
  { s with trace := s.trace ++ [SessionOp.abortTransaction] }

/-- Transaction options passed to `session.startTransaction` in
`updateEmployeeInfo`; the runner forwards them opaquely and nothing in the
control flow depends on them. -/
structure TransactionOptions where
  readConcernLevel : String
  writeConcernW : String
  readPref : String
deriving DecidableEq, Repr

/-- The concrete options used by `updateEmployeeInfo` in the source. -/
def updateEmployeeOptions : TransactionOptions :=
  { readConcernLevel := "snapshot", writeConcernW := "majority", readPref := "primary" }

/-- `commitWithRetry(session)`: call `commitTransaction`; on an error with
label `UnknownTransactionCommitResult` retry the commit alone, otherwise
rethrow the error. -/
def commitWithRetry : Nat → Db → RunState → Option (RunState × Except MongoError Unit)
  | 0, _, _ => none
  | fuel + 1, db, s =>
    match db.commit s.nCommit with
    | none => some (afterCommitCall s, Except.ok ())
    | some e =>
      if e.hasErrorLabel unknownLabel then
        commitWithRetry fuel db (afterCommitCall s)
      else
        some (afterCommitCall s, Except.error e)

/-- `updateEmployeeInfo(client, session)`: start a transaction, run the two
collection operations (one work-unit execution), then
`try { commitWithRetry(session) } catch (e) { abortTransaction(); throw e }`.
An error thrown by the work-unit body itself is NOT caught here: only the
commit step is wrapped in the try/catch that aborts. -/
def updateEmployeeInfo (fuel : Nat) (db : Db) (s : RunState) :
    Option (RunState × Except MongoError Unit) :=
  match db.work s.nWork with
  | some e => some (afterStartAndWork s, Except.error e)
  | none =>
    match commitWithRetry fuel db (afterStartAndWork s) with
    | none => none
    | some (s3, Except.ok ()) => some (s3, Except.ok ())
    | some (s3, Except.error e) => some (afterAbortCall s3, Except.error e)

/-- `runTransactionWithRetry(txnFunc, client, session)` with
`txnFunc = updateEmployeeInfo`: run the transaction function; on an error
with label `TransientTransactionError` retry the whole transaction,
otherwise rethrow. -/
def runTransactionWithRetry : Nat → Db → RunState → Option (RunState × Except MongoError Unit)
  | 0, _, _ => none
  | fuel + 1, db, s =>
    match updateEmployeeInfo fuel db s with
    | none => none
    | some (s1, Except.ok ()) => some (s1, Except.ok ())
    | some (s1, Except.error e) =>
      if e.hasErrorLabel transientLabel then
        runTransactionWithRetry fuel db s1
      else
        some (s1, Except.error e)

/-- Initial observation state: nothing has been attempted. -/
def initState : RunState := ⟨0, 0, []⟩

/-- `run`: one top-level invocation of the runner,
`runTransactionWithRetry(updateEmployeeInfo, client, session)`. -/
def run (fuel : Nat) (db : Db) : Option (RunState × Except MongoError Unit) :=
  runTransactionWithRetry fuel db initState

/-! ### Embedding of `src/unnamed/part_000` -/

/-- The Lambda-style response built by the handler: a status code and a list
of documents. -/
structure LambdaResponse (Doc : Type) where
  statusCode : Nat
  body : List Doc
deriving DecidableEq, Repr

/-- The handler of `src/unnamed/part_000`: ignore the event, read the
`movies` collection of the `sample_mflix` database with `limit(10)`, and
answer with status 200.  The connected database is modelled as a map from
database name and collection name to the collection's full document list;
`find().limit(10).toArray()` is the 10-element-bounded list of its
documents. -/
def handler {Event Doc : Type} (database : String → String → List Doc)
    (event : Event) : LambdaResponse Doc :=
  { statusCode := 200, body := (database "sample_mflix" "movies").take 10 }

/-! ### Concrete scenario oracles used by counterexamples and witnesses -/

/-- An error with no labels at all. -/
def plainError : MongoError := ⟨1, []⟩

/-- An error labelled only `TransientTransactionError`. -/
def transientError : MongoError := ⟨2, [transientLabel]⟩

/-- An error labelled only `UnknownTransactionCommitResult`. -/
def unknownError : MongoError := ⟨3, [unknownLabel]⟩

/-- Oracle: the first work-unit execution throws an unlabelled error. -/
def dbWorkFails : Db := ⟨fun _ => some plainError, fun _ => none⟩

/-- Oracle: work succeeds, every commit throws an unlabelled error. -/
def dbCommitFails : Db := ⟨fun _ => none, fun _ => some plainError⟩

/-- Oracle: work succeeds, the first commit throws a transient-labelled
error, later commits succeed. -/
def dbCommitTransientOnce : Db :=
  ⟨fun _ => none, fun m => if m = 0 then some transientError else none⟩

/-- Oracle: the first work execution throws a transient-labelled error,
everything afterwards succeeds. -/
def dbWorkTransientOnce : Db :=
  ⟨fun n => if n = 0 then some transientError else none, fun _ => none⟩

/-- Oracle: work succeeds, the first two commits throw unknown-labelled
errors, the third succeeds. -/
def dbCommitUnknownTwice : Db :=
  ⟨fun _ => none, fun m => if m < 2 then some unknownError else none⟩

/-- Oracle: work always succeeds and every commit throws a
transient-labelled (but not unknown-labelled) error — the runner loops
forever on it. -/
def dbCommitAlwaysTransient : Db :=
  ⟨fun _ => none, fun _ => some transientError⟩

/-- Oracle: everything succeeds immediately. -/
def dbAllOk : Db := ⟨fun _ => none, fun _ => none⟩

/-! ### Step lemmas: one unfolding of each source function per branch -/

theorem commitWithRetry_ok (fuel : Nat) (db : Db) (s : RunState)
    (h : db.commit s.nCommit = none) :
    commitWithRetry (fuel + 1) db s = some (afterCommitCall s, Except.ok ()) := by
  unfold commitWithRetry
  rw [h]

theorem commitWithRetry_unknown (fuel : Nat) (db : Db) (s : RunState) (e : MongoError)
    (h : db.commit s.nCommit = some e) (hu : e.hasErrorLabel unknownLabel = true) :
    commitWithRetry (fuel + 1) db s = commitWithRetry fuel db (afterCommitCall s) := by
  simp [commitWithRetry, h, hu]

theorem commitWithRetry_err (fuel : Nat) (db : Db) (s : RunState) (e : MongoError)
    (h : db.commit s.nCommit = some e) (hu : e.hasErrorLabel unknownLabel = false) :
    commitWithRetry (fuel + 1) db s = some (afterCommitCall s, Except.error e) := by
  simp [commitWithRetry, h, hu]

theorem updateEmployeeInfo_workErr (fuel : Nat) (db : Db) (s : RunState) (e : MongoError)
    (h : db.work s.nWork = some e) :
    updateEmployeeInfo fuel db s = some (afterStartAndWork s, Except.error e) := by
  unfold updateEmployeeInfo
  rw [h]

theorem updateEmployeeInfo_commitOk (fuel : Nat) (db : Db) (s s3 : RunState)
    (hw : db.work s.nWork = none)
    (hc : commitWithRetry fuel db (afterStartAndWork s) = some (s3, Except.ok ())) :
    updateEmployeeInfo fuel db s = some (s3, Except.ok ()) := by
  unfold updateEmployeeInfo
  rw [hw, hc]

theorem updateEmployeeInfo_commitErr (fuel : Nat) (db : Db) (s s3 : RunState) (e : MongoError)
    (hw : db.work s.nWork = none)
    (hc : commitWithRetry fuel db (afterStartAndWork s) = some (s3, Except.error e)) :
    updateEmployeeInfo fuel db s = some (afterAbortCall s3, Except.error e) := by
  unfold updateEmployeeInfo
  rw [hw, hc]

theorem updateEmployeeInfo_commitFuel (fuel : Nat) (db : Db) (s : RunState)
    (hw : db.work s.nWork = none)
    (hc : commitWithRetry fuel db (afterStartAndWork s) = none) :
    updateEmployeeInfo fuel db s = none := by
  unfold updateEmployeeInfo
  rw [hw, hc]

theorem runTransactionWithRetry_ok (fuel : Nat) (db : Db) (s s1 : RunState)
    (h : updateEmployeeInfo fuel db s = some (s1, Except.ok ())) :
    runTransactionWithRetry (fuel + 1) db s = some (s1, Except.ok ()) := by
  unfold runTransactionWithRetry
  rw [h]

theorem runTransactionWithRetry_retry (fuel : Nat) (db : Db) (s s1 : RunState) (e : MongoError)
    (h : updateEmployeeInfo fuel db s = some (s1, Except.error e))
    (ht : e.hasErrorLabel transientLabel = true) :
    runTransactionWithRetry (fuel + 1) db s = runTransactionWithRetry fuel db s1 := by
  simp [runTransactionWithRetry, h, ht]

theorem runTransactionWithRetry_err (fuel : Nat) (db : Db) (s s1 : RunState) (e : MongoError)
    (h : updateEmployeeInfo fuel db s = some (s1, Except.error e))
    (ht : e.hasErrorLabel transientLabel = false) :
    runTransactionWithRetry (fuel + 1) db s = some (s1, Except.error e) := by
  simp [runTransactionWithRetry, h, ht]

theorem runTransactionWithRetry_fuel (fuel : Nat) (db : Db) (s : RunState)
    (h : updateEmployeeInfo fuel db s = none) :
    runTransactionWithRetry (fuel + 1) db s = none := by
  unfold runTransactionWithRetry
  rw [h]

/-! ### Claims C1 – C5 -/

/-- Claim C1, counterexample to the claim as stated: with an oracle whose
first work-unit execution throws an error with no recognized label, `run`
returns that exact error and attempts no commit, but `abortTransaction` is
invoked zero times, not exactly once. -/
theorem c1_counterexample :
    run 1 dbWorkFails =
      some (⟨1, 0, [SessionOp.startTransaction, SessionOp.workOp]⟩, Except.error plainError) ∧
    ¬ ([SessionOp.startTransaction, SessionOp.workOp].count SessionOp.abortTransaction = 1) :=
  ⟨rfl, by decide⟩

/-- Claim C1 (amended): for every WorkUnit failure whose error carries no
recognized label, `run` returns that exact error, `commitTransaction` is
never attempted, and `abortTransaction` is never invoked (the source wraps
only the commit step in the abort-and-rethrow handler, so a work-unit error
propagates without an explicit abort). -/
theorem c1_terminal_work_error_no_abort (db : Db) (e : MongoError)
    (hw : db.work 0 = some e)
    (ht : e.hasErrorLabel transientLabel = false)
    (hu : e.hasErrorLabel unknownLabel = false) :
    run 1 db =
      some (⟨1, 0, [SessionOp.startTransaction, SessionOp.workOp]⟩, Except.error e) := by
  have h1 : updateEmployeeInfo 0 db initState =
      some (afterStartAndWork initState, Except.error e) :=
    updateEmployeeInfo_workErr 0 db initState e hw
  exact runTransactionWithRetry_err 0 db initState (afterStartAndWork initState) e h1 ht

/-- Witness for C1's amended theorem at the concrete oracle `dbWorkFails`. -/
theorem c1_terminal_work_error_no_abort_witness :
    run 1 dbWorkFails =
      some (⟨1, 0, [SessionOp.startTransaction, SessionOp.workOp]⟩, Except.error plainError) :=
  c1_terminal_work_error_no_abort dbWorkFails plainError rfl rfl rfl

/-- Claim C2, counterexample to the claim as stated: with an oracle whose
work unit succeeds and whose commit throws an error with no recognized
label, `run` returns that exact error but `abortTransaction` IS invoked
(once, right after the failed commit), contradicting "abortTransaction is
not invoked after the failed commit". -/
theorem c2_counterexample :
    run 2 dbCommitFails =
      some (⟨1, 1, [SessionOp.startTransaction, SessionOp.workOp,
                    SessionOp.commitTransaction, SessionOp.abortTransaction]⟩,
            Except.error plainError) ∧
    ¬ ([SessionOp.startTransaction, SessionOp.workOp, SessionOp.commitTransaction,
        SessionOp.abortTransaction].count SessionOp.abortTransaction = 0) :=
  ⟨rfl, by decide⟩

/-- Claim C2 (amended): for every commit failure whose error carries no
recognized label, `run` returns that exact error and `abortTransaction` is
invoked exactly once, immediately after the failed commit (the source's
catch around `commitWithRetry` aborts before rethrowing). -/
theorem c2_terminal_commit_error_aborts (db : Db) (e : MongoError)
    (hw : db.work 0 = none)
    (hc : db.commit 0 = some e)
    (hu : e.hasErrorLabel unknownLabel = false)
    (ht : e.hasErrorLabel transientLabel = false) :
    run 2 db =
      some (⟨1, 1, [SessionOp.startTransaction, SessionOp.workOp,
                    SessionOp.commitTransaction, SessionOp.abortTransaction]⟩,
            Except.error e) := by
  have h1 : commitWithRetry 1 db (afterStartAndWork initState) =
      some (afterCommitCall (afterStartAndWork initState), Except.error e) :=
    commitWithRetry_err 0 db (afterStartAndWork initState) e hc hu
  have h2 : updateEmployeeInfo 1 db initState =
      some (afterAbortCall (afterCommitCall (afterStartAndWork initState)), Except.error e) :=
    updateEmployeeInfo_commitErr 1 db initState (afterCommitCall (afterStartAndWork initState))
      e hw h1
  exact runTransactionWithRetry_err 1 db initState
    (afterAbortCall (afterCommitCall (afterStartAndWork initState))) e h2 ht

/-- Witness for C2's amended theorem at the concrete oracle `dbCommitFails`. -/
theorem c2_terminal_commit_error_aborts_witness :
    run 2 dbCommitFails =
      some (⟨1, 1, [SessionOp.startTransaction, SessionOp.workOp,
                    SessionOp.commitTransaction, SessionOp.abortTransaction]⟩,
            Except.error plainError) :=
  c2_terminal_commit_error_aborts dbCommitFails plainError rfl rfl rfl rfl

/-- Claim C3, counterexample to the claim as stated: with an oracle whose
first commit throws an error labelled `TransientTransactionError` (and not
`UnknownTransactionCommitResult`) and whose second commit succeeds, `run`
does NOT propagate a terminal failure — it aborts, re-executes the whole
WorkUnit and commits again, returning success with two work executions and
two commit attempts. -/
theorem c3_counterexample :
    run 3 dbCommitTransientOnce =
      some (⟨2, 2, [SessionOp.startTransaction, SessionOp.workOp,
                    SessionOp.commitTransaction, SessionOp.abortTransaction,
                    SessionOp.startTransaction, SessionOp.workOp,
                    SessionOp.commitTransaction]⟩,
            Except.ok ()) ∧
    ¬ ([SessionOp.startTransaction, SessionOp.workOp,
        SessionOp.commitTransaction, SessionOp.abortTransaction,
        SessionOp.startTransaction, SessionOp.workOp,
        SessionOp.commitTransaction].count SessionOp.workOp = 1) :=
  ⟨rfl, by decide⟩

/-- Claim C3 (amended): a commit failure labelled `TransientTransactionError`
but not `UnknownTransactionCommitResult` is NOT terminal: `commitWithRetry`
rethrows it, `updateEmployeeInfo` aborts the transaction and rethrows, and
the outer `runTransactionWithRetry` — whose transient check applies to any
error escaping the transaction function, commit errors included — retries
the entire transaction, WorkUnit and all.  The two label checks do
interfere. -/
theorem c3_transient_commit_error_retries_transaction (db : Db) (e : MongoError)
    (hw0 : db.work 0 = none) (hw1 : db.work 1 = none)
    (hc0 : db.commit 0 = some e)
    (ht : e.hasErrorLabel transientLabel = true)
    (hu : e.hasErrorLabel unknownLabel = false)
    (hc1 : db.commit 1 = none) :
    run 3 db =
      some (⟨2, 2, [SessionOp.startTransaction, SessionOp.workOp,
                    SessionOp.commitTransaction, SessionOp.abortTransaction,
                    SessionOp.startTransaction, SessionOp.workOp,
                    SessionOp.commitTransaction]⟩,
            Except.ok ()) := by
  have h1 : commitWithRetry 2 db (afterStartAndWork initState) =
      some (afterCommitCall (afterStartAndWork initState), Except.error e) :=
    commitWithRetry_err 1 db (afterStartAndWork initState) e hc0 hu
  have h2 : updateEmployeeInfo 2 db initState =
      some (afterAbortCall (afterCommitCall (afterStartAndWork initState)), Except.error e) :=
    updateEmployeeInfo_commitErr 2 db initState
      (afterCommitCall (afterStartAndWork initState)) e hw0 h1
  have h3 : runTransactionWithRetry 3 db initState =
      runTransactionWithRetry 2 db
        (afterAbortCall (afterCommitCall (afterStartAndWork initState))) :=
    runTransactionWithRetry_retry 2 db initState
      (afterAbortCall (afterCommitCall (afterStartAndWork initState))) e h2 ht
  have h4 : commitWithRetry 1 db
      (afterStartAndWork (afterAbortCall (afterCommitCall (afterStartAndWork initState)))) =
      some (afterCommitCall
        (afterStartAndWork (afterAbortCall (afterCommitCall (afterStartAndWork initState)))),
        Except.ok ()) :=
    commitWithRetry_ok 0 db
      (afterStartAndWork (afterAbortCall (afterCommitCall (afterStartAndWork initState)))) hc1
  have h5 : updateEmployeeInfo 1 db
      (afterAbortCall (afterCommitCall (afterStartAndWork initState))) =
      some (afterCommitCall
        (afterStartAndWork (afterAbortCall (afterCommitCall (afterStartAndWork initState)))),
        Except.ok ()) :=
    updateEmployeeInfo_commitOk 1 db
      (afterAbortCall (afterCommitCall (afterStartAndWork initState)))
      (afterCommitCall
        (afterStartAndWork (afterAbortCall (afterCommitCall (afterStartAndWork initState)))))
      hw1 h4
  have h6 := runTransactionWithRetry_ok 1 db
    (afterAbortCall (afterCommitCall (afterStartAndWork initState)))
    (afterCommitCall
      (afterStartAndWork (afterAbortCall (afterCommitCall (afterStartAndWork initState)))))
    h5
  exact h3.trans h6

/-- Witness for C3's amended theorem at the concrete oracle
`dbCommitTransientOnce`. -/
theorem c3_transient_commit_error_retries_transaction_witness :
    run 3 dbCommitTransientOnce =
      some (⟨2, 2, [SessionOp.startTransaction, SessionOp.workOp,
                    SessionOp.commitTransaction, SessionOp.abortTransaction,
                    SessionOp.startTransaction, SessionOp.workOp,
                    SessionOp.commitTransaction]⟩,
            Except.ok ()) :=
  c3_transient_commit_error_retries_transaction dbCommitTransientOnce transientError
    rfl rfl rfl rfl rfl rfl

/-- Claim C4 (confirmed): a WorkUnit that fails once with a
`TransientTransactionError`-labelled error and succeeds on its second
attempt makes `run` return success; the WorkUnit executes exactly twice and
the second execution is preceded by a fresh `startTransaction` call. -/
theorem c4_retry_then_succeed (db : Db) (e : MongoError)
    (hw0 : db.work 0 = some e)
    (ht : e.hasErrorLabel transientLabel = true)
    (hw1 : db.work 1 = none)
    (hc0 : db.commit 0 = none) :
    run 3 db =
      some (⟨2, 1, [SessionOp.startTransaction, SessionOp.workOp,
                    SessionOp.startTransaction, SessionOp.workOp,
                    SessionOp.commitTransaction]⟩,
            Except.ok ()) := by
  have h1 : updateEmployeeInfo 2 db initState =
      some (afterStartAndWork initState, Except.error e) :=
    updateEmployeeInfo_workErr 2 db initState e hw0
  have h2 : runTransactionWithRetry 3 db initState =
      runTransactionWithRetry 2 db (afterStartAndWork initState) :=
    runTransactionWithRetry_retry 2 db initState (afterStartAndWork initState) e h1 ht
  have h3 : commitWithRetry 1 db (afterStartAndWork (afterStartAndWork initState)) =
      some (afterCommitCall (afterStartAndWork (afterStartAndWork initState)), Except.ok ()) :=
    commitWithRetry_ok 0 db (afterStartAndWork (afterStartAndWork initState)) hc0
  have h4 : updateEmployeeInfo 1 db (afterStartAndWork initState) =
      some (afterCommitCall (afterStartAndWork (afterStartAndWork initState)), Except.ok ()) :=
    updateEmployeeInfo_commitOk 1 db (afterStartAndWork initState)
      (afterCommitCall (afterStartAndWork (afterStartAndWork initState))) hw1 h3
  have h5 := runTransactionWithRetry_ok 1 db (afterStartAndWork initState)
    (afterCommitCall (afterStartAndWork (afterStartAndWork initState))) h4
  exact h2.trans h5

/-- Witness for C4's theorem at the concrete oracle `dbWorkTransientOnce`. -/
theorem c4_retry_then_succeed_witness :
    run 3 dbWorkTransientOnce =
      some (⟨2, 1, [SessionOp.startTransaction, SessionOp.workOp,
                    SessionOp.startTransaction, SessionOp.workOp,
                    SessionOp.commitTransaction]⟩,
            Except.ok ()) :=
  c4_retry_then_succeed dbWorkTransientOnce transientError rfl rfl rfl rfl

/-- Claim C5 (confirmed): a commit that fails twice with
`UnknownTransactionCommitResult`-labelled errors and succeeds on the third
attempt makes `run` return success; the WorkUnit executes exactly once and
`commitTransaction` is attempted exactly three times — only the commit call
is retried, never the WorkUnit. -/
theorem c5_commit_retry (db : Db) (e1 e2 : MongoError)
    (hw : db.work 0 = none)
    (hc0 : db.commit 0 = some e1) (hu1 : e1.hasErrorLabel unknownLabel = true)
    (hc1 : db.commit 1 = some e2) (hu2 : e2.hasErrorLabel unknownLabel = true)
    (hc2 : db.commit 2 = none) :
    run 4 db =
      some (⟨1, 3, [SessionOp.startTransaction, SessionOp.workOp,
                    SessionOp.commitTransaction, SessionOp.commitTransaction,
                    SessionOp.commitTransaction]⟩,
            Except.ok ()) := by
  have h1 : commitWithRetry 3 db (afterStartAndWork initState) =
      commitWithRetry 2 db (afterCommitCall (afterStartAndWork initState)) :=
    commitWithRetry_unknown 2 db (afterStartAndWork initState) e1 hc0 hu1
  have h2 : commitWithRetry 2 db (afterCommitCall (afterStartAndWork initState)) =
      commitWithRetry 1 db (afterCommitCall (afterCommitCall (afterStartAndWork initState))) :=
    commitWithRetry_unknown 1 db (afterCommitCall (afterStartAndWork initState)) e2 hc1 hu2
  have h3 : commitWithRetry 1 db
      (afterCommitCall (afterCommitCall (afterStartAndWork initState))) =
      some (afterCommitCall (afterCommitCall (afterCommitCall (afterStartAndWork initState))),
            Except.ok ()) :=
    commitWithRetry_ok 0 db
      (afterCommitCall (afterCommitCall (afterStartAndWork initState))) hc2
  have h4 : updateEmployeeInfo 3 db initState =
      some (afterCommitCall (afterCommitCall (afterCommitCall (afterStartAndWork initState))),
            Except.ok ()) :=
    updateEmployeeInfo_commitOk 3 db initState
      (afterCommitCall (afterCommitCall (afterCommitCall (afterStartAndWork initState))))
      hw (h1.trans (h2.trans h3))
  exact runTransactionWithRetry_ok 3 db initState
    (afterCommitCall (afterCommitCall (afterCommitCall (afterStartAndWork initState)))) h4

/-- Witness for C5's theorem at the concrete oracle `dbCommitUnknownTwice`. -/
theorem c5_commit_retry_witness :
    run 4 dbCommitUnknownTwice =
      some (⟨1, 3, [SessionOp.startTransaction, SessionOp.workOp,
                    SessionOp.commitTransaction, SessionOp.commitTransaction,
                    SessionOp.commitTransaction]⟩,
            Except.ok ()) :=
  c5_commit_retry dbCommitUnknownTwice unknownError unknownError rfl rfl rfl rfl rfl rfl

/-! ### General lemmas about every run (for C6, C7, C9) -/

theorem endSession_notMem_afterCommitCall (s : RunState)
    (h : SessionOp.endSession ∉ s.trace) :
    SessionOp.endSession ∉ (afterCommitCall s).trace := by
  simp [afterCommitCall, h]

theorem endSession_notMem_afterStartAndWork (s : RunState)
    (h : SessionOp.endSession ∉ s.trace) :
    SessionOp.endSession ∉ (afterStartAndWork s).trace := by
  simp [afterStartAndWork, h]

theorem endSession_notMem_afterAbortCall (s : RunState)
    (h : SessionOp.endSession ∉ s.trace) :
    SessionOp.endSession ∉ (afterAbortCall s).trace := by
  simp [afterAbortCall, h]

theorem commitWithRetry_no_endSession (fuel : Nat) (db : Db) :
    ∀ (s s' : RunState) (r : Except MongoError Unit),
      commitWithRetry fuel db s = some (s', r) →
      SessionOp.endSession ∉ s.trace → SessionOp.endSession ∉ s'.trace := by
  induction fuel with
  | zero =>
    intro s s' r h
    simp [commitWithRetry] at h
  | succ n ih =>
    intro s s' r h hs
    cases hc : db.commit s.nCommit with
    | none =>
      rw [commitWithRetry_ok n db s hc] at h
      simp only [Option.some.injEq, Prod.mk.injEq] at h
      obtain ⟨rfl, -⟩ := h
      exact endSession_notMem_afterCommitCall s hs
    | some e =>
      cases hu : e.hasErrorLabel unknownLabel with
      | true =>
        rw [commitWithRetry_unknown n db s e hc hu] at h
        exact ih (afterCommitCall s) s' r h (endSession_notMem_afterCommitCall s hs)
      | false =>
        rw [commitWithRetry_err n db s e hc hu] at h
        simp only [Option.some.injEq, Prod.mk.injEq] at h
        obtain ⟨rfl, -⟩ := h
        exact endSession_notMem_afterCommitCall s hs

theorem updateEmployeeInfo_no_endSession (fuel : Nat) (db : Db)
    (s s' : RunState) (r : Except MongoError Unit)
    (h : updateEmployeeInfo fuel db s = some (s', r))
    (hs : SessionOp.endSession ∉ s.trace) :
    SessionOp.endSession ∉ s'.trace := by
  cases hw : db.work s.nWork with
  | some e =>
    rw [updateEmployeeInfo_workErr fuel db s e hw] at h
    simp only [Option.some.injEq, Prod.mk.injEq] at h
    obtain ⟨rfl, -⟩ := h
    exact endSession_notMem_afterStartAndWork s hs
  | none =>
    have hsw := endSession_notMem_afterStartAndWork s hs
    cases hc : commitWithRetry fuel db (afterStartAndWork s) with
    | none =>
      rw [updateEmployeeInfo_commitFuel fuel db s hw hc] at h
      exact absurd h (by simp)
    | some p =>
      obtain ⟨s3, r3⟩ := p
      have h3 := commitWithRetry_no_endSession fuel db (afterStartAndWork s) s3 r3 hc hsw
      cases r3 with
      | ok u =>
        cases u
        rw [updateEmployeeInfo_commitOk fuel db s s3 hw hc] at h
        simp only [Option.some.injEq, Prod.mk.injEq] at h
        obtain ⟨rfl, -⟩ := h
        exact h3
      | error e3 =>
        rw [updateEmployeeInfo_commitErr fuel db s s3 e3 hw hc] at h
        simp only [Option.some.injEq, Prod.mk.injEq] at h
        obtain ⟨rfl, -⟩ := h
        exact endSession_notMem_afterAbortCall s3 h3

theorem runTransactionWithRetry_no_endSession (fuel : Nat) (db : Db) :
    ∀ (s s' : RunState) (r : Except MongoError Unit),
      runTransactionWithRetry fuel db s = some (s', r) →
      SessionOp.endSession ∉ s.trace → SessionOp.endSession ∉ s'.trace := by
  induction fuel with
  | zero =>
    intro s s' r h
    simp [runTransactionWithRetry] at h
  | succ n ih =>
    intro s s' r h hs
    cases hu : updateEmployeeInfo n db s with
    | none =>
      rw [runTransactionWithRetry_fuel n db s hu] at h
      exact absurd h (by simp)
    | some p =>
      obtain ⟨s1, r1⟩ := p
      have h1 := updateEmployeeInfo_no_endSession n db s s1 r1 hu hs
      cases r1 with
      | ok u =>
        cases u
        rw [runTransactionWithRetry_ok n db s s1 hu] at h
        simp only [Option.some.injEq, Prod.mk.injEq] at h
        obtain ⟨rfl, -⟩ := h
        exact h1
      | error e1 =>
        cases ht : e1.hasErrorLabel transientLabel with
        | true =>
          rw [runTransactionWithRetry_retry n db s s1 e1 hu ht] at h
          exact ih s1 s' r h h1
        | false =>
          rw [runTransactionWithRetry_err n db s s1 e1 hu ht] at h
          simp only [Option.some.injEq, Prod.mk.injEq] at h
          obtain ⟨rfl, -⟩ := h
          exact h1

theorem commitWithRetry_error_src (fuel : Nat) (db : Db) :
    ∀ (s s' : RunState) (e : MongoError),
      commitWithRetry fuel db s = some (s', Except.error e) →
      ∃ m, db.commit m = some e := by
  induction fuel with
  | zero =>
    intro s s' e h
    simp [commitWithRetry] at h
  | succ n ih =>
    intro s s' e h
    cases hc : db.commit s.nCommit with
    | none =>
      rw [commitWithRetry_ok n db s hc] at h
      simp at h
    | some e0 =>
      cases hu : e0.hasErrorLabel unknownLabel with
      | true =>
        rw [commitWithRetry_unknown n db s e0 hc hu] at h
        exact ih (afterCommitCall s) s' e h
      | false =>
        rw [commitWithRetry_err n db s e0 hc hu] at h
        simp only [Option.some.injEq, Prod.mk.injEq, Except.error.injEq] at h
        obtain ⟨-, rfl⟩ := h
        exact ⟨s.nCommit, hc⟩

theorem updateEmployeeInfo_error_src (fuel : Nat) (db : Db)
    (s s' : RunState) (e : MongoError)
    (h : updateEmployeeInfo fuel db s = some (s', Except.error e)) :
    (∃ n, db.work n = some e) ∨ (∃ m, db.commit m = some e) := by
  cases hw : db.work s.nWork with
  | some e0 =>
    rw [updateEmployeeInfo_workErr fuel db s e0 hw] at h
    simp only [Option.some.injEq, Prod.mk.injEq, Except.error.injEq] at h
    obtain ⟨-, rfl⟩ := h
    exact Or.inl ⟨s.nWork, hw⟩
  | none =>
    cases hc : commitWithRetry fuel db (afterStartAndWork s) with
    | none =>
      rw [updateEmployeeInfo_commitFuel fuel db s hw hc] at h
      exact absurd h (by simp)
    | some p =>
      obtain ⟨s3, r3⟩ := p
      cases r3 with
      | ok u =>
        cases u
        rw [updateEmployeeInfo_commitOk fuel db s s3 hw hc] at h
        simp at h
      | error e3 =>
        rw [updateEmployeeInfo_commitErr fuel db s s3 e3 hw hc] at h
        simp only [Option.some.injEq, Prod.mk.injEq, Except.error.injEq] at h
        obtain ⟨-, rfl⟩ := h
        exact Or.inr (commitWithRetry_error_src fuel db (afterStartAndWork s) s3 e3 hc)

theorem runTransactionWithRetry_error_src (fuel : Nat) (db : Db) :
    ∀ (s s' : RunState) (e : MongoError),
      runTransactionWithRetry fuel db s = some (s', Except.error e) →
      (∃ n, db.work n = some e) ∨ (∃ m, db.commit m = some e) := by
  induction fuel with
  | zero =>
    intro s s' e h
    simp [runTransactionWithRetry] at h
  | succ n ih =>
    intro s s' e h
    cases hu : updateEmployeeInfo n db s with
    | none =>
      rw [runTransactionWithRetry_fuel n db s hu] at h
      exact absurd h (by simp)
    | some p =>
      obtain ⟨s1, r1⟩ := p
      cases r1 with
      | ok u =>
        cases u
        rw [runTransactionWithRetry_ok n db s s1 hu] at h
        simp at h
      | error e1 =>
        cases ht : e1.hasErrorLabel transientLabel with
        | true =>
          rw [runTransactionWithRetry_retry n db s s1 e1 hu ht] at h
          exact ih s1 s' e h
        | false =>
          rw [runTransactionWithRetry_err n db s s1 e1 hu ht] at h
          simp only [Option.some.injEq, Prod.mk.injEq, Except.error.injEq] at h
          obtain ⟨-, rfl⟩ := h
          exact updateEmployeeInfo_error_src n db s s1 e1 hu

theorem runTransactionWithRetry_no_transient (fuel : Nat) (db : Db) :
    ∀ (s s' : RunState) (e : MongoError),
      runTransactionWithRetry fuel db s = some (s', Except.error e) →
      e.hasErrorLabel transientLabel = false := by
  induction fuel with
  | zero =>
    intro s s' e h
    simp [runTransactionWithRetry] at h
  | succ n ih =>
    intro s s' e h
    cases hu : updateEmployeeInfo n db s with
    | none =>
      rw [runTransactionWithRetry_fuel n db s hu] at h
      exact absurd h (by simp)
    | some p =>
      obtain ⟨s1, r1⟩ := p
      cases r1 with
      | ok u =>
        cases u
        rw [runTransactionWithRetry_ok n db s s1 hu] at h
        simp at h
      | error e1 =>
        cases ht : e1.hasErrorLabel transientLabel with
        | true =>
          rw [runTransactionWithRetry_retry n db s s1 e1 hu ht] at h
          exact ih s1 s' e h
        | false =>
          rw [runTransactionWithRetry_err n db s s1 e1 hu ht] at h
          simp only [Option.some.injEq, Prod.mk.injEq, Except.error.injEq] at h
          obtain ⟨-, rfl⟩ := h
          exact ht

/-! ### Claims C6, C7, C9 -/

/-- Claim C6 (confirmed): every terminal failure `run` returns is the very
error value the database reported — some work-unit response or some commit
response of the oracle is exactly that error, unchanged and unwrapped, so
its identity and labels are preserved (the source rethrows the caught error
object itself, never a wrapper). -/
theorem c6_errors_verbatim (fuel : Nat) (db : Db) (s' : RunState) (e : MongoError)
    (h : run fuel db = some (s', Except.error e)) :
    (∃ n, db.work n = some e) ∨ (∃ m, db.commit m = some e) :=
  runTransactionWithRetry_error_src fuel db initState s' e h

/-- Witness for C6 at the concrete oracle `dbWorkFails`. -/
theorem c6_errors_verbatim_witness :
    (∃ n, dbWorkFails.work n = some plainError) ∨
    (∃ m, dbWorkFails.commit m = some plainError) :=
  c6_errors_verbatim 1 dbWorkFails
    ⟨1, 0, [SessionOp.startTransaction, SessionOp.workOp]⟩ plainError rfl

/-- Claim C7 (confirmed): under every outcome of `run` — success, transient
retries, terminal work-unit failure, terminal commit failure — the
session's close operation (`endSession`) never appears in the trace of
session operations the runner performed. -/
theorem c7_session_never_closed (fuel : Nat) (db : Db)
    (res : RunState × Except MongoError Unit)
    (h : run fuel db = some res) :
    SessionOp.endSession ∉ res.1.trace :=
  runTransactionWithRetry_no_endSession fuel db initState res.1 res.2 h
    (by simp [initState])

/-- Witness for C7 at the concrete oracle `dbCommitFails`. -/
theorem c7_session_never_closed_witness :
    SessionOp.endSession ∉
      ((⟨1, 1, [SessionOp.startTransaction, SessionOp.workOp,
                SessionOp.commitTransaction, SessionOp.abortTransaction]⟩,
        Except.error plainError) :
        RunState × Except MongoError Unit).1.trace :=
  c7_session_never_closed 2 dbCommitFails
    (⟨1, 1, [SessionOp.startTransaction, SessionOp.workOp,
             SessionOp.commitTransaction, SessionOp.abortTransaction]⟩,
     Except.error plainError) rfl

/-- Claim C9 (confirmed): `run` never returns an error carrying the
`TransientTransactionError` label: the outer retry handler recovers every
transient-labelled error by restarting the whole transaction, and only
errors failing that label check are rethrown to the caller (retries are
unbounded, so no exhaustion path exists). -/
theorem c9_no_transient_error_returned (fuel : Nat) (db : Db) (s' : RunState)
    (e : MongoError)
    (h : run fuel db = some (s', Except.error e)) :
    e.hasErrorLabel transientLabel = false :=
  runTransactionWithRetry_no_transient fuel db initState s' e h

/-- Witness for C9 at the concrete oracle `dbWorkFails`. -/
theorem c9_no_transient_error_returned_witness :
    plainError.hasErrorLabel transientLabel = false :=
  c9_no_transient_error_returned 1 dbWorkFails
    ⟨1, 0, [SessionOp.startTransaction, SessionOp.workOp]⟩ plainError rfl

/-! ### Fuel monotonicity (for C8) -/

theorem commitWithRetry_mono_succ (fuel : Nat) (db : Db) :
    ∀ (s : RunState) (r : RunState × Except MongoError Unit),
      commitWithRetry fuel db s = some r → commitWithRetry (fuel + 1) db s = some r := by
  induction fuel with
  | zero =>
    intro s r h
    simp [commitWithRetry] at h
  | succ n ih =>
    intro s r h
    cases hc : db.commit s.nCommit with
    | none =>
      rw [commitWithRetry_ok n db s hc] at h
      rw [commitWithRetry_ok (n + 1) db s hc]
      exact h
    | some e =>
      cases hu : e.hasErrorLabel unknownLabel with
      | true =>
        rw [commitWithRetry_unknown n db s e hc hu] at h
        rw [commitWithRetry_unknown (n + 1) db s e hc hu]
        exact ih (afterCommitCall s) r h
      | false =>
        rw [commitWithRetry_err n db s e hc hu] at h
        rw [commitWithRetry_err (n + 1) db s e hc hu]
        exact h

theorem commitWithRetry_mono (db : Db) (s : RunState)
    (r : RunState × Except MongoError Unit) (fuel fuel' : Nat) (hle : fuel ≤ fuel')
    (h : commitWithRetry fuel db s = some r) : commitWithRetry fuel' db s = some r := by
  induction hle with
  | refl => exact h
  | step hle ih => exact commitWithRetry_mono_succ _ db s r ih

theorem updateEmployeeInfo_mono (db : Db) (s : RunState)
    (r : RunState × Except MongoError Unit) (fuel fuel' : Nat) (hle : fuel ≤ fuel')
    (h : updateEmployeeInfo fuel db s = some r) : updateEmployeeInfo fuel' db s = some r := by
  cases hw : db.work s.nWork with
  | some e =>
    rw [updateEmployeeInfo_workErr fuel db s e hw] at h
    rw [updateEmployeeInfo_workErr fuel' db s e hw]
    exact h
  | none =>
    cases hc : commitWithRetry fuel db (afterStartAndWork s) with
    | none =>
      rw [updateEmployeeInfo_commitFuel fuel db s hw hc] at h
      exact absurd h (by simp)
    | some p =>
      obtain ⟨s3, r3⟩ := p
      have hc' := commitWithRetry_mono db (afterStartAndWork s) (s3, r3) fuel fuel' hle hc
      cases r3 with
      | ok u =>
        cases u
        rw [updateEmployeeInfo_commitOk fuel db s s3 hw hc] at h
        rw [updateEmployeeInfo_commitOk fuel' db s s3 hw hc']
        exact h
      | error e3 =>
        rw [updateEmployeeInfo_commitErr fuel db s s3 e3 hw hc] at h
        rw [updateEmployeeInfo_commitErr fuel' db s s3 e3 hw hc']
        exact h

theorem runTransactionWithRetry_mono_succ (fuel : Nat) (db : Db) :
    ∀ (s : RunState) (r : RunState × Except MongoError Unit),
      runTransactionWithRetry fuel db s = some r →
      runTransactionWithRetry (fuel + 1) db s = some r := by
  induction fuel with
  | zero =>
    intro s r h
    simp [runTransactionWithRetry] at h
  | succ n ih =>
    intro s r h
    cases hu : updateEmployeeInfo n db s with
    | none =>
      rw [runTransactionWithRetry_fuel n db s hu] at h
      exact absurd h (by simp)
    | some p =>
      obtain ⟨s1, r1⟩ := p
      have hu' := updateEmployeeInfo_mono db s (s1, r1) n (n + 1) (Nat.le_succ n) hu
      cases r1 with
      | ok u =>
        cases u
        rw [runTransactionWithRetry_ok n db s s1 hu] at h
        rw [runTransactionWithRetry_ok (n + 1) db s s1 hu']
        exact h
      | error e1 =>
        cases ht : e1.hasErrorLabel transientLabel with
        | true =>
          rw [runTransactionWithRetry_retry n db s s1 e1 hu ht] at h
          rw [runTransactionWithRetry_retry (n + 1) db s s1 e1 hu' ht]
          exact ih s1 r h
        | false =>
          rw [runTransactionWithRetry_err n db s s1 e1 hu ht] at h
          rw [runTransactionWithRetry_err (n + 1) db s s1 e1 hu' ht]
          exact h

theorem runTransactionWithRetry_mono (db : Db) (s : RunState)
    (r : RunState × Except MongoError Unit) (fuel fuel' : Nat) (hle : fuel ≤ fuel')
    (h : runTransactionWithRetry fuel db s = some r) :
    runTransactionWithRetry fuel' db s = some r := by
  induction hle with
  | refl => exact h
  | step hle ih => exact runTransactionWithRetry_mono_succ _ db s r ih

/-! ### Termination of the retry loops (for C8) -/

theorem commitWithRetry_step_ok (fuel : Nat) (db : Db) (s : RunState)
    (hc : db.commit s.nCommit = none) :
    ∃ s' r, commitWithRetry (fuel + 1) db s = some (s', r) ∧
      s.nCommit < s'.nCommit ∧ s'.nWork = s.nWork ∧
      ∀ e, r = Except.error e → db.commit (s'.nCommit - 1) = some e := by
  refine ⟨afterCommitCall s, Except.ok (), commitWithRetry_ok fuel db s hc, ?_, ?_, ?_⟩
  · simp [afterCommitCall]
  · simp [afterCommitCall]
  · intro e h
    exact absurd h (by simp)

theorem commitWithRetry_step_err (fuel : Nat) (db : Db) (s : RunState) (e : MongoError)
    (hc : db.commit s.nCommit = some e) (hu : e.hasErrorLabel unknownLabel = false) :
    ∃ s' r, commitWithRetry (fuel + 1) db s = some (s', r) ∧
      s.nCommit < s'.nCommit ∧ s'.nWork = s.nWork ∧
      ∀ e0, r = Except.error e0 → db.commit (s'.nCommit - 1) = some e0 := by
  refine ⟨afterCommitCall s, Except.error e, commitWithRetry_err fuel db s e hc hu, ?_, ?_, ?_⟩
  · simp [afterCommitCall]
  · simp [afterCommitCall]
  · intro e0 h
    have he : e = e0 := by
      injection h
    subst he
    simpa [afterCommitCall] using hc

theorem commitWithRetry_term (db : Db) (M : Nat)
    (hM : ∀ m, M ≤ m → ∀ e, db.commit m = some e → e.hasErrorLabel unknownLabel = false) :
    ∀ (fuel : Nat) (s : RunState), M ≤ s.nCommit + fuel →
      ∃ s' r, commitWithRetry (fuel + 1) db s = some (s', r) ∧
        s.nCommit < s'.nCommit ∧ s'.nWork = s.nWork ∧
        ∀ e, r = Except.error e → db.commit (s'.nCommit - 1) = some e := by
  intro fuel
  induction fuel with
  | zero =>
    intro s hMs
    cases hc : db.commit s.nCommit with
    | none => exact commitWithRetry_step_ok 0 db s hc
    | some e =>
      exact commitWithRetry_step_err 0 db s e hc (hM s.nCommit (by omega) e hc)
  | succ n ih =>
    intro s hMs
    cases hc : db.commit s.nCommit with
    | none => exact commitWithRetry_step_ok (n + 1) db s hc
    | some e =>
      cases hu : e.hasErrorLabel unknownLabel with
      | false => exact commitWithRetry_step_err (n + 1) db s e hc hu
      | true =>
        have hlt : s.nCommit < M := by
          by_contra hge
          have hfalse := hM s.nCommit (by omega) e hc
          rw [hfalse] at hu
          cases hu
        have hC : (afterCommitCall s).nCommit = s.nCommit + 1 := by simp [afterCommitCall]
        obtain ⟨s', r, hrun, h1, h2, h3⟩ := ih (afterCommitCall s) (by omega)
        refine ⟨s', r, ?_, ?_, ?_, h3⟩
        · rw [commitWithRetry_unknown (n + 1) db s e hc hu]
          exact hrun
        · omega
        · rw [h2]
          simp [afterCommitCall]

theorem runTransactionWithRetry_term (db : Db) (N M : Nat)
    (hN : ∀ n, N ≤ n → ∀ e, db.work n = some e → e.hasErrorLabel transientLabel = false)
    (hM : ∀ m, M ≤ m → ∀ e, db.commit m = some e →
        e.hasErrorLabel unknownLabel = false ∧ e.hasErrorLabel transientLabel = false) :
    ∀ (k : Nat) (s : RunState), (N - s.nWork) + (M - s.nCommit) ≤ k →
      ∃ fuel r, runTransactionWithRetry fuel db s = some r := by
  have hMu : ∀ m, M ≤ m → ∀ e, db.commit m = some e → e.hasErrorLabel unknownLabel = false :=
    fun m hm e he => (hM m hm e he).1
  intro k
  induction k using Nat.strong_induction_on with
  | _ k ih =>
    intro s hk
    have hW2 : (afterStartAndWork s).nWork = s.nWork + 1 := by simp [afterStartAndWork]
    have hC2 : (afterStartAndWork s).nCommit = s.nCommit := by simp [afterStartAndWork]
    cases hw : db.work s.nWork with
    | some e =>
      cases ht : e.hasErrorLabel transientLabel with
      | false =>
        exact ⟨1, (afterStartAndWork s, Except.error e),
          runTransactionWithRetry_err 0 db s (afterStartAndWork s) e
            (updateEmployeeInfo_workErr 0 db s e hw) ht⟩
      | true =>
        have hlt : s.nWork < N := by
          by_contra hge
          have hfalse := hN s.nWork (by omega) e hw
          rw [hfalse] at ht
          cases ht
        obtain ⟨fuel1, r, hr⟩ :=
          ih ((N - (afterStartAndWork s).nWork) + (M - (afterStartAndWork s).nCommit))
            (by omega) (afterStartAndWork s) (Nat.le_refl _)
        refine ⟨fuel1 + 1, r, ?_⟩
        rw [runTransactionWithRetry_retry fuel1 db s (afterStartAndWork s) e
          (updateEmployeeInfo_workErr fuel1 db s e hw) ht]
        exact hr
    | none =>
      obtain ⟨s3, rc, hcrun, hcinc, hcwork, hcerr⟩ :=
        commitWithRetry_term db M hMu M (afterStartAndWork s) (by omega)
      cases rc with
      | ok u =>
        cases u
        exact ⟨M + 2, (s3, Except.ok ()),
          runTransactionWithRetry_ok (M + 1) db s s3
            (updateEmployeeInfo_commitOk (M + 1) db s s3 hw hcrun)⟩
      | error e3 =>
        have hsrc := hcerr e3 rfl
        cases ht3 : e3.hasErrorLabel transientLabel with
        | false =>
          exact ⟨M + 2, (afterAbortCall s3, Except.error e3),
            runTransactionWithRetry_err (M + 1) db s (afterAbortCall s3) e3
              (updateEmployeeInfo_commitErr (M + 1) db s s3 e3 hw hcrun) ht3⟩
        | true =>
          have hidx : s3.nCommit - 1 < M := by
            by_contra hge
            have hfalse := (hM (s3.nCommit - 1) (by omega) e3 hsrc).2
            rw [hfalse] at ht3
            cases ht3
          have hW4 : (afterAbortCall s3).nWork = s.nWork + 1 := by
            simp [afterAbortCall]
            omega
          have hC4 : (afterAbortCall s3).nCommit = s3.nCommit := by simp [afterAbortCall]
          obtain ⟨fuel1, r, hr⟩ :=
            ih ((N - (afterAbortCall s3).nWork) + (M - (afterAbortCall s3).nCommit))
              (by omega) (afterAbortCall s3) (Nat.le_refl _)
          refine ⟨max (M + 1) fuel1 + 1, r, ?_⟩
          have hcrun' := commitWithRetry_mono db (afterStartAndWork s) (s3, Except.error e3)
            (M + 1) (max (M + 1) fuel1) (Nat.le_max_left _ _) hcrun
          have hr' := runTransactionWithRetry_mono db (afterAbortCall s3) r fuel1
            (max (M + 1) fuel1) (Nat.le_max_right _ _) hr
          rw [runTransactionWithRetry_retry (max (M + 1) fuel1) db s (afterAbortCall s3) e3
            (updateEmployeeInfo_commitErr (max (M + 1) fuel1) db s s3 e3 hw hcrun') ht3]
          exact hr'

theorem runTransactionWithRetry_always_transient_none :
    ∀ (fuel : Nat) (s : RunState),
      runTransactionWithRetry fuel dbCommitAlwaysTransient s = none := by
  intro fuel
  induction fuel with
  | zero =>
    intro s
    simp [runTransactionWithRetry]
  | succ n ih =>
    intro s
    cases n with
    | zero =>
      exact runTransactionWithRetry_fuel 0 dbCommitAlwaysTransient s
        (updateEmployeeInfo_commitFuel 0 dbCommitAlwaysTransient s rfl rfl)
    | succ m =>
      have hc : commitWithRetry (m + 1) dbCommitAlwaysTransient (afterStartAndWork s) =
          some (afterCommitCall (afterStartAndWork s), Except.error transientError) :=
        commitWithRetry_err m dbCommitAlwaysTransient (afterStartAndWork s) transientError
          rfl rfl
      have hup : updateEmployeeInfo (m + 1) dbCommitAlwaysTransient s =
          some (afterAbortCall (afterCommitCall (afterStartAndWork s)),
                Except.error transientError) :=
        updateEmployeeInfo_commitErr (m + 1) dbCommitAlwaysTransient s
          (afterCommitCall (afterStartAndWork s)) transientError rfl hc
      rw [runTransactionWithRetry_retry (m + 1) dbCommitAlwaysTransient s
        (afterAbortCall (afterCommitCall (afterStartAndWork s))) transientError hup rfl]
      exact ih (afterAbortCall (afterCommitCall (afterStartAndWork s)))

/-! ### Claim C8 -/

/-- Claim C8, counterexample to the claim as stated: the oracle
`dbCommitAlwaysTransient` satisfies the claim's precondition — the work unit
never fails at all (so a non-transient work-unit outcome arrives after
finitely many attempts), and already the first commit outcome carries no
`UnknownTransactionCommitResult` label — yet `run` never terminates on it:
every commit failure carries the `TransientTransactionError` label, so the
outer handler retries the whole transaction forever. -/
theorem c8_counterexample :
    (∃ N, ∀ n, N ≤ n → ∀ e, dbCommitAlwaysTransient.work n = some e →
        e.hasErrorLabel transientLabel = false) ∧
    (∃ M, ∀ m, M ≤ m → ∀ e, dbCommitAlwaysTransient.commit m = some e →
        e.hasErrorLabel unknownLabel = false) ∧
    ¬ ∃ fuel r, run fuel dbCommitAlwaysTransient = some r := by
  refine ⟨⟨0, ?_⟩, ⟨0, ?_⟩, ?_⟩
  · intro n _ e he
    exact absurd he (by simp [dbCommitAlwaysTransient])
  · intro m _ e he
    have heq : transientError = e := by
      simpa [dbCommitAlwaysTransient] using he
    rw [← heq]
    rfl
  · rintro ⟨fuel, r, hr⟩
    rw [show run fuel dbCommitAlwaysTransient = none from
      runTransactionWithRetry_always_transient_none fuel initState] at hr
    cases hr

/-- Claim C8 (amended): `run` terminates provided the database, after
finitely many work-unit attempts, stops returning transient-labelled
work-unit errors AND, after finitely many commit attempts, stops returning
commit errors labelled `UnknownTransactionCommitResult` or
`TransientTransactionError`.  The extra condition on transient commit
errors is forced: a transient-labelled commit failure re-runs the whole
transaction (see C3), so the claim's original precondition does not bound
the recursion. -/
theorem c8_termination (db : Db) (N M : Nat)
    (hN : ∀ n, N ≤ n → ∀ e, db.work n = some e → e.hasErrorLabel transientLabel = false)
    (hM : ∀ m, M ≤ m → ∀ e, db.commit m = some e →
        e.hasErrorLabel unknownLabel = false ∧ e.hasErrorLabel transientLabel = false) :
    ∃ fuel r, run fuel db = some r :=
  runTransactionWithRetry_term db N M hN hM
    ((N - initState.nWork) + (M - initState.nCommit)) initState (Nat.le_refl _)

/-- Witness for C8's amended theorem at the all-success oracle `dbAllOk`. -/
theorem c8_termination_witness : ∃ fuel r, run fuel dbAllOk = some r :=
  c8_termination dbAllOk 0 0
    (fun _ _ e he => absurd he (by simp [dbAllOk]))
    (fun _ _ e he => absurd he (by simp [dbAllOk]))

/-! ### Claim C10 -/

/-- Claim C10 (confirmed): the handler of `src/unnamed/part_000` ignores its
event argument — any two events produce the identical response — and the
response always has `statusCode` 200 and a body that is exactly the first
at-most-10 documents of the fixed collection `sample_mflix.movies`. -/
theorem c10_handler_constant {Event Doc : Type} (database : String → String → List Doc)
    (e1 e2 : Event) :
    handler database e1 = handler database e2 ∧
    (handler database e1).statusCode = 200 ∧
    (handler database e1).body.length ≤ 10 ∧
    (handler database e1).body = (database "sample_mflix" "movies").take 10 := by
  refine ⟨rfl, rfl, ?_, rfl⟩
  simp [handler]
